import Mathlib

/-!
Verification of the query/response orchestration layer of the
Fanton-Lucrezia/ProgettoCommunity widget.

The development shallowly embeds the three source files:
* `src/Code/codice.php` (catalog flow: `fetchData`, `pickProtagonist`,
  `pickMainStaff`, `doSearch`),
* `src/unnamed/part_000` (anime-search flow: `fetchAnilist`, its cache,
  cancellation and error handling, `doSearch`),
* `src/Code/JavaScript.js` (CSV-to-table utility).

JavaScript objects become Lean structures; nullable/optional fields become
`Option`; JavaScript's stable `Array.prototype.sort` (stable since ES2019)
becomes a stable insertion sort; the `fetch` network boundary becomes an
explicit `NetOutcome` parameter consumed at the single `await` point; the
mutable module state (`cache`, UI elements, `lastPageInfo`, ...) is threaded
as an explicit state record.
-/

/-! ## String utilities

`String.prototype.includes` over upper/lower-cased text, used by the role
predicates of `pickProtagonist` (role contains "MAIN", case-insensitive) and
`pickMainStaff` (regex `/story|original|creator|author/i`, which on these
needles is plain case-insensitive substring search). -/

/-- Check that `hay` begins with the characters of `needle`. -/
def charsBeginWith : List Char → List Char → Bool
  | _, [] => true
  | [], _ :: _ => false
  | a :: as, b :: bs => a == b && charsBeginWith as bs

/-- Check that `needle` occurs contiguously somewhere in `hay`
(JavaScript `String.prototype.includes`). -/
def hasSubChars : List Char → List Char → Bool
  | [], needle => charsBeginWith [] needle
  | c :: t, needle => charsBeginWith (c :: t) needle || hasSubChars t needle

/-- JavaScript `toUpperCase` (the role strings involved are ASCII). -/
def upperStr (s : String) : String := String.mk (s.toList.map Char.toUpper)

/-- JavaScript `toLowerCase` (the role strings involved are ASCII). -/
def lowerStr (s : String) : String := String.mk (s.toList.map Char.toLower)

/-- Drop leading whitespace characters. -/
def dropLeadingWS : List Char → List Char
  | [] => []
  | c :: t => if c.isWhitespace then dropLeadingWS t else c :: t

/-- JavaScript `String.prototype.trim`: strip whitespace from both ends. -/
def jsTrim (s : String) : String :=
  String.mk ((dropLeadingWS ((dropLeadingWS s.toList).reverse)).reverse)

/-! ## Stable descending sort and the first-maximum selector

`xs.sort((a, b) => keyOf(b) - keyOf(a))` in the source is a stable descending
sort by an integer key; only the head of the sorted list is ever used.
`firstMax` is the claim-side description of that head: the element with the
largest key, ties broken by original list order. -/

/-- Insert `x` into a descending-sorted list, after every strictly greater
element and before every element whose key is less than or equal to the key
of `x` (so earlier-listed elements win ties: a stable descending sort). -/
def insertDescBy {α : Type} (key : α → Int) (x : α) : List α → List α
  | [] => [x]
  | y :: ys => if key x < key y then y :: insertDescBy key x ys else x :: y :: ys

/-- Stable descending insertion sort by an integer key; produces the same
list as JavaScript's stable `Array.prototype.sort((a, b) => key b - key a)`. -/
def sortDescBy {α : Type} (key : α → Int) : List α → List α
  | [] => []
  | x :: xs => insertDescBy key x (sortDescBy key xs)

/-- Running first maximum: the earliest element of `b :: es` with the largest
key (the accumulator `b` wins ties against later elements). -/
def firstMaxD {α : Type} (key : α → Int) (b : α) : List α → α
  | [] => b
  | e :: es => firstMaxD key (if key b < key e then e else b) es

/-- The earliest element of the list with the largest key, if any: the
claim-side reading of "highest favourite count, ties broken by original
list order". -/
def firstMax {α : Type} (key : α → Int) : List α → Option α
  | [] => none
  | x :: xs => some (firstMaxD key x xs)

/-! ## Character model and `pickProtagonist` (src/Code/codice.php, lines 121-151)

A character edge is `{role, node:{name:{full}, image:{medium}, favourites}}`.
Nullable or possibly-missing fields are `Option`: `node.name?.full` collapses
to a single `Option String` (missing `name` object and missing `full` both
surface as "absent"), likewise `image?.medium`; `favourites` is `Option Int`
(`typeof favourites === 'number'` is `Option.isSome`). An edge that is itself
null in the JavaScript array is represented as an edge with `node := none`,
which the `e && e.node` filter discards identically. -/

/-- A character node: `{name:{full}, image:{medium}, favourites}`. -/
structure CharNode where
  name : Option String
  image : Option String
  favourites : Option Int
deriving DecidableEq

/-- A character edge: `{role, node}`. -/
structure CharEdge where
  role : Option String
  node : Option CharNode
deriving DecidableEq

/-- The protagonist record `{name, image}` built by `pickProtagonist`. -/
structure Protag where
  name : String
  image : String
deriving DecidableEq

/-- The favourite-count sort key `(e.node.favourites || 0)` used by every
`sort((a, b) => (b.node.favourites || 0) - (a.node.favourites || 0))` call
on character edges. -/
def favKeyC (e : CharEdge) : Int := (e.node.bind CharNode.favourites).getD 0

/-- Role test `e.role && String(e.role).toUpperCase().includes('MAIN')`
(a falsy role, absent or empty, fails the test). -/
def roleHasMain (r : Option String) : Bool :=
  match r with
  | none => false
  | some s => s != "" && hasSubChars (upperStr s).toList ("MAIN".toList)

/-- The result record `{name: e.node.name?.full || '', image: e.node.image?.medium || ''}`. -/
def protagOfEdge (e : CharEdge) : Protag :=
  { name := (e.node.bind CharNode.name).getD ""
    image := (e.node.bind CharNode.image).getD "" }

/-- The final-fallback test `e.node && e.node.name && e.node.name.full`:
the node has a name object with a truthy (non-empty) `full` string. -/
def hasFullName (e : CharEdge) : Bool :=
  match e.node with
  | none => false
  | some n =>
    match n.name with
    | none => false
    | some s => s != ""

/-- The local `edges = characters.edges.filter(e => e && e.node)`. -/
def validEdges (raw : List CharEdge) : List CharEdge :=
  raw.filter (fun e => e.node.isSome)

/-- The local `mainEdges = edges.filter(e => e.role && ...includes('MAIN'))`. -/
def mainEdgesOf (raw : List CharEdge) : List CharEdge :=
  (validEdges raw).filter (fun e => roleHasMain e.role)

/-- The local `edgesWithFav = edges.filter(e => typeof e.node.favourites === 'number')`. -/
def favEdgesOf (raw : List CharEdge) : List CharEdge :=
  (validEdges raw).filter (fun e => (e.node.bind CharNode.favourites).isSome)

/-- Shallow embedding of `pickProtagonist(characters)`: `none` as input stands
for a null `characters` object or a non-array `edges` field; the in-place
`sort` on the freshly filtered arrays is the stable `sortDescBy`, of which the
code only uses element 0. -/
def pickProtagonist (characters : Option (List CharEdge)) : Option Protag :=
  match characters with
  | none => none
  | some raw =>
    if (validEdges raw).length = 0 then none
    else if (mainEdgesOf raw).length = 1 then
      ((mainEdgesOf raw).head?).map protagOfEdge
    else if 1 < (mainEdgesOf raw).length then
      ((sortDescBy favKeyC (mainEdgesOf raw)).head?).map protagOfEdge
    else if 0 < (favEdgesOf raw).length then
      ((sortDescBy favKeyC (favEdgesOf raw)).head?).map protagOfEdge
    else
      match (validEdges raw).find? hasFullName with
      | some e => some (protagOfEdge e)
      | none => none

/-- The caller-side default of `renderTable`
(`pickProtagonist(item.characters) || { name: '', image: '' }`). -/
def protagOrBlank (o : Option Protag) : Protag := o.getD { name := "", image := "" }

/-! ## Staff model and `pickMainStaff` (src/Code/codice.php, lines 154-167) -/

/-- A staff node: `{name:{full}, favourites}`. -/
structure StaffNode where
  name : Option String
  favourites : Option Int
deriving DecidableEq

/-- A staff edge: `{role, node}`. -/
structure StaffEdge where
  role : Option String
  node : Option StaffNode
deriving DecidableEq

/-- The main-staff record `{name}` built by `pickMainStaff`. -/
structure MainStaff where
  name : String
deriving DecidableEq

/-- The favourite-count sort key on staff edges. -/
def favKeyS (e : StaffEdge) : Int := (e.node.bind StaffNode.favourites).getD 0

/-- Role test `e.role && /story|original|creator|author/i.test(e.role)`: on
these alternation-of-literals patterns the regex is case-insensitive substring
search. -/
def staffRoleMatch (r : Option String) : Bool :=
  match r with
  | none => false
  | some s =>
    s != "" &&
      (hasSubChars (lowerStr s).toList ("story".toList) ||
       hasSubChars (lowerStr s).toList ("original".toList) ||
       hasSubChars (lowerStr s).toList ("creator".toList) ||
       hasSubChars (lowerStr s).toList ("author".toList))

/-- The local `edges = staff.edges.filter(e => e && e.node)`. -/
def staffValidEdges (raw : List StaffEdge) : List StaffEdge :=
  raw.filter (fun e => e.node.isSome)

/-- The local `candidates = edges.filter(e => e.role && /.../.test(e.role))`. -/
def staffMatchEdges (raw : List StaffEdge) : List StaffEdge :=
  (staffValidEdges raw).filter (fun e => staffRoleMatch e.role)

/-- The reassignment `if (candidates.length === 0) candidates = edges`. -/
def consideredStaff (raw : List StaffEdge) : List StaffEdge :=
  if (staffMatchEdges raw).length = 0 then staffValidEdges raw else staffMatchEdges raw

/-- The result record `{name: pick.node.name?.full || ''}`. -/
def mainStaffOf (e : StaffEdge) : MainStaff :=
  { name := (e.node.bind StaffNode.name).getD "" }

/-- Shallow embedding of `pickMainStaff(staff)`: filter valid edges, prefer
role-matching candidates (falling back to all valid edges), stable-sort by
favourites descending and take element 0. -/
def pickMainStaff (staff : Option (List StaffEdge)) : Option MainStaff :=
  match staff with
  | none => none
  | some raw =>
    if (staffValidEdges raw).length = 0 then none
    else ((sortDescBy favKeyS (consideredStaff raw)).head?).map mainStaffOf

/-! ## Concrete edge lists used by the spec's examples -/

/-- Build a character edge with a present node. -/
def mkCharEdge (role : Option String) (name : Option String) (fav : Option Int) : CharEdge :=
  { role := role, node := some { name := name, image := none, favourites := fav } }

/-- The spec's example: favourites 300, 700, 200 in list order, no MAIN roles. -/
def exampleNoMain : List CharEdge :=
  [ mkCharEdge (some "SUPPORTING") (some "A") (some 300)
  , mkCharEdge (some "SUPPORTING") (some "B") (some 700)
  , mkCharEdge (some "SUPPORTING") (some "C") (some 200) ]

/-- Two edges whose roles contain "MAIN", favourites 500 and 900. -/
def exampleTwoMain : List CharEdge :=
  [ mkCharEdge (some "MAIN") (some "X") (some 500)
  , mkCharEdge (some "Main Character") (some "Y") (some 900) ]

/-- No numeric favourite counts at all; the first edge with a name is "Alice". -/
def exampleNoFav : List CharEdge :=
  [ { role := some "BACKGROUND", node := some { name := none, image := none, favourites := none } }
  , mkCharEdge (some "BACKGROUND") (some "Alice") none
  , mkCharEdge none (some "Bob") none ]

/-! ## Array-store model of the pickers (aliasing and mutation)

JavaScript arrays are heap references: `filter` allocates a fresh array while
`sort` mutates its receiver in place. To settle whether the pickers mutate
their argument, the same picker code is embedded once more against an explicit
array store: `CHeap.alloc` is a `filter` allocation, `CHeap.write` is an
in-place `sort`. The input array is the cell `r`; the aliasing of
`candidates = edges` in `pickMainStaff` is modelled by reusing the reference. -/

/-- A store of arrays: cell `r` holds an array; `next` is the next fresh
reference. -/
structure CHeap (α : Type) where
  mem : Nat → List α
  next : Nat

/-- Read the array held in cell `r`. -/
def CHeap.read {α : Type} (h : CHeap α) (r : Nat) : List α := h.mem r

/-- Overwrite cell `r` in place (JavaScript's in-place `Array.prototype.sort`). -/
def CHeap.write {α : Type} (h : CHeap α) (r : Nat) (xs : List α) : CHeap α :=
  { h with mem := fun n => if n = r then xs else h.mem n }

/-- Allocate a fresh array (the result of `Array.prototype.filter`). -/
def CHeap.alloc {α : Type} (h : CHeap α) (xs : List α) : CHeap α × Nat :=
  ({ mem := fun n => if n = h.next then xs else h.mem n, next := h.next + 1 }, h.next)

/-- `pickProtagonist` replayed against the array store: every `filter` is an
allocation, every `sort` is an in-place write to the freshly filtered array. -/
def pickProtagonistH (h0 : CHeap CharEdge) (r : Nat) : CHeap CharEdge × Option Protag :=
  let a1 := h0.alloc ((h0.read r).filter (fun e => e.node.isSome))
  let h1 := a1.1
  let rE := a1.2
  if (h1.read rE).length = 0 then (h1, none)
  else
    let a2 := h1.alloc ((h1.read rE).filter (fun e => roleHasMain e.role))
    let h2 := a2.1
    let rM := a2.2
    if (h2.read rM).length = 1 then (h2, ((h2.read rM).head?).map protagOfEdge)
    else if 1 < (h2.read rM).length then
      let h3 := h2.write rM (sortDescBy favKeyC (h2.read rM))
      (h3, ((h3.read rM).head?).map protagOfEdge)
    else
      let a3 := h2.alloc ((h2.read rE).filter
        (fun e => (e.node.bind CharNode.favourites).isSome))
      let h3 := a3.1
      let rF := a3.2
      if 0 < (h3.read rF).length then
        let h4 := h3.write rF (sortDescBy favKeyC (h3.read rF))
        (h4, ((h4.read rF).head?).map protagOfEdge)
      else
        match (h3.read rE).find? hasFullName with
        | some e => (h3, some (protagOfEdge e))
        | none => (h3, none)

/-- `pickMainStaff` replayed against the array store. When no role matches,
`candidates = edges` aliases the filtered copy, so the in-place `sort` then
targets the copy `rE`, never the input `r`. -/
def pickMainStaffH (h0 : CHeap StaffEdge) (r : Nat) : CHeap StaffEdge × Option MainStaff :=
  let a1 := h0.alloc ((h0.read r).filter (fun e => e.node.isSome))
  let h1 := a1.1
  let rE := a1.2
  if (h1.read rE).length = 0 then (h1, none)
  else
    let a2 := h1.alloc ((h1.read rE).filter (fun e => staffRoleMatch e.role))
    let h2 := a2.1
    let rC0 := a2.2
    let rC := if (h2.read rC0).length = 0 then rE else rC0
    let h3 := h2.write rC (sortDescBy favKeyS (h2.read rC))
    (h3, ((h3.read rC).head?).map mainStaffOf)

/-- A one-cell store holding the example character-edge list. -/
def witnessCharHeap : CHeap CharEdge :=
  { mem := fun _ => exampleNoMain, next := 1 }

/-- A one-cell store holding a staff-edge list with no matching role, so that
the in-place sort targets the aliased filtered copy. -/
def witnessStaffHeap : CHeap StaffEdge :=
  { mem := fun _ =>
      [ { role := some "Art", node := some { name := some "P", favourites := some 10 } }
      , { role := some "Art", node := some { name := some "Q", favourites := some 25 } } ]
    next := 1 }

/-! ## Catalog flow (src/Code/codice.php)

The module state `{currentFormat, page, perPage, search}` and the variable
object built by `fetchData` (lines 74-115), plus the status/error elements
written by `setStatus`/`setError`. The network boundary of `fetch` is the
`CatNet` parameter: a successful payload, an API error list (line 110 throws
their messages joined by "; "), or any other thrown error. -/

/-- The four category buttons' formats. -/
inductive CatFormat where
  | MANGA
  | NOVEL
  | MANHWA
  | MANHUA
deriving DecidableEq

/-- The module-level `state` object of codice.php. -/
structure CatalogState where
  currentFormat : Option CatFormat
  page : Nat
  perPage : Nat
  search : String
deriving DecidableEq

/-- `DEFAULT_TAG_EXCLUDE` (line 68). -/
def DEFAULT_TAG_EXCLUDE : List String :=
  ["Hentai", "Ecchi", "Adult", "Erotica", "Sexual Content", "Nudity"]

/-- `DEFAULT_GENRE_EXCLUDE` (line 69). -/
def DEFAULT_GENRE_EXCLUDE : List String := []

/-- The GraphQL `variables` object assembled by `fetchData`; absent optional
fields are `none`. -/
structure CatVariables where
  page : Nat
  perPage : Nat
  search : Option String
  format_in : List String
  tag_not_in : List String
  genre_not_in : Option (List String)
  country : Option String
deriving DecidableEq

/-- The Query Builder of `fetchData` (lines 79-101): format/country from the
if/else chain on `state.currentFormat`, `search: state.search || null`,
`genre_not_in` only when the static exclusion list is non-empty, `country`
only when set. -/
def buildVariables (s : CatalogState) : CatVariables :=
  let fmtIn : List String :=
    if s.currentFormat = some CatFormat.NOVEL then ["NOVEL"] else ["MANGA"]
  let country : Option String :=
    if s.currentFormat = some CatFormat.NOVEL then none
    else if s.currentFormat = some CatFormat.MANHWA then some "KR"
    else if s.currentFormat = some CatFormat.MANHUA then some "CN"
    else if s.currentFormat = some CatFormat.MANGA then some "JP"
    else none
  { page := s.page
    perPage := s.perPage
    search := if s.search = "" then none else some s.search
    format_in := fmtIn
    tag_not_in := DEFAULT_TAG_EXCLUDE
    genre_not_in :=
      if DEFAULT_GENRE_EXCLUDE.length ≠ 0 then some DEFAULT_GENRE_EXCLUDE else none
    country := country }

/-- `pageInfo { total currentPage lastPage }` of the catalog query;
`total` may be null (`pageInfo.total != null` is checked before the pager). -/
structure CatPageInfo where
  total : Option Nat
  currentPage : Nat
  lastPage : Nat
deriving DecidableEq

/-- A catalog media item, carrying the nested edge lists fed to the pickers. -/
structure CatMedia where
  format : Option String
  titleUserPreferred : Option String
  mediaStatus : Option String
  chapters : Option Nat
  countryOfOrigin : Option String
  coverMedium : Option String
  characters : Option (List CharEdge)
  staff : Option (List StaffEdge)
deriving DecidableEq

/-- `data.data.Page` of the catalog query. -/
structure CatPage where
  pageInfo : CatPageInfo
  media : List CatMedia
deriving DecidableEq

/-- The status text written by `renderTable` (lines 169-220). -/
def renderCatStatus (p : CatPage) : String :=
  if p.media.length = 0 then "Nessun risultato trovati."
  else "Mostrati " ++ toString p.media.length ++ " risultati."

/-- The `status` and `error` elements of the catalog page
(`setStatus`/`setError`, lines 71-72). -/
structure CatalogUI where
  status : String
  errorShown : Bool
  errorText : String
deriving DecidableEq

/-- Outcome of the catalog `fetch`: a parsed payload with `data.Page`, a
payload with an `errors` list, or any other rejection, carrying the thrown
error's `message` and its `String(err)` stringification (used when the
message is falsy). -/
inductive CatNet where
  | ok (page : CatPage)
  | apiErrors (messages : List String)
  | jsError (message : String) (stringified : String)
deriving DecidableEq

/-- The continuation of `fetchData` past its `await` point together with the
catch-clause of `doSearch` (lines 109-114 and 229-232): an `errors` list
throws `new Error(data.errors.map(e => e.message).join('; '))`, and
`doSearch` surfaces `setError(err.message || String(err))` — the join itself
when it is non-empty, otherwise the stringification of an empty-message
`Error`, which is "Error". Any other thrown error surfaces its message with
the same `|| String(err)` fallback. -/
def catalogNetCont (u : CatalogUI) (net : CatNet) : CatalogUI × Option CatPage :=
  match net with
  | .ok p => ({ u with status := renderCatStatus p }, some p)
  | .apiErrors msgs =>
      ({ u with
          errorShown := true
          errorText :=
            if String.intercalate "; " msgs = "" then "Error"
            else String.intercalate "; " msgs
          status := "Errore durante il caricamento." }, none)
  | .jsError m str =>
      ({ u with
          errorShown := true
          errorText := if m = "" then str else m
          status := "Errore durante il caricamento." }, none)

/-- `doSearch(page)` of codice.php (lines 222-233): fail fast with an inline
error when no category is selected, otherwise update the state, run
`fetchData` (which clears the error and sets the loading status before its
single network request) and handle the outcome. The returned `Bool` records
whether the request-issuing path (`fetchData`'s `fetch`) was reached. -/
def doSearchCatalog (s : CatalogState) (u : CatalogUI) (inputValue : String)
    (page : Nat) (net : CatNet) : CatalogState × CatalogUI × Bool :=
  if s.currentFormat = none then
    (s, { u with errorShown := true, errorText := "Seleziona una sottocategoria." }, false)
  else
    let s2 := { s with page := page, search := jsTrim inputValue }
    let u2 := { u with errorShown := false, errorText := "", status := "Caricamento..." }
    let res := catalogNetCont u2 net
    (s2, res.1, true)

/-! ## Anime-search flow (src/unnamed/part_000)

Module state: the `cache` Map (insertion-ordered association list), the UI
elements, `lastPageInfo`, `currentPage`, `lastQuery`. The single suspension
point of `fetchAnilist` is split into `fetchPre` (everything before `await
fetch`, including the cache check) and `fetchPost` (everything after: the
`!res.ok` branch, the `payload.errors` branch, the cache insertion and
eviction, and the catch/finally clauses). The `NetOutcome` parameter is what
the awaited network interaction produced; `aborted` is an `AbortError`
rejection, which is how a request superseded via `abortController.abort()`
observes its cancellation. -/

/-- `pageInfo` of the anime query. -/
structure AnimePageInfo where
  total : Nat
  currentPage : Nat
  lastPage : Nat
  hasNextPage : Bool
  perPage : Nat
deriving DecidableEq

/-- A media entry of the anime query (fields as selected by the GraphQL
document; only the list length is observed by the modelled status text). -/
structure AnimeMedia where
  id : Nat
  titleRomaji : Option String
  titleEnglish : Option String
  titleNative : Option String
  episodes : Option Nat
  mediaStatus : Option String
  season : Option String
  seasonYear : Option Nat
  genres : List String
  averageScore : Option Nat
  coverLarge : Option String
  siteUrl : Option String
deriving DecidableEq

/-- `payload.data.Page` of the anime query. -/
structure AnimePage where
  pageInfo : AnimePageInfo
  media : List AnimeMedia
deriving DecidableEq

/-- The `cache` Map: entries in insertion order, keys unique in any reachable
state. -/
abbrev AnimeCache := List (String × AnimePage)

/-- `cache.has`/`cache.get`: first entry with the given key. -/
def cacheLookup : AnimeCache → String → Option AnimePage
  | [], _ => none
  | (k, v) :: t, key => if k = key then some v else cacheLookup t key

/-- `cache.set`: update in place when the key is present (keeping its
position, as a JavaScript Map does), otherwise append. -/
def cacheSet : AnimeCache → String → AnimePage → AnimeCache
  | [], key, v => [(key, v)]
  | (k, w) :: t, key, v =>
      if k = key then (key, v) :: t else (k, w) :: cacheSet t key v

/-- `cache.delete(key)`: remove the first entry with the given key. -/
def cacheDeleteKey : AnimeCache → String → AnimeCache
  | [], _ => []
  | (k, v) :: t, key => if k = key then t else (k, v) :: cacheDeleteKey t key

/-- Lines 134-137: `if (cache.size > 50) cache.delete(cache.keys().next().value)`
— delete the oldest (first-inserted) key when the size exceeds 50. -/
def cacheEvict (c : AnimeCache) : AnimeCache :=
  if 50 < c.length then
    match c with
    | [] => c
    | (k, _) :: _ => cacheDeleteKey c k
  else c

/-- The UI elements touched by `fetchAnilist`. -/
structure AnimeUI where
  status : String
  errorShown : Bool
  errorText : String
  searchBtnDisabled : Bool
deriving DecidableEq

/-- The whole mutable module state of part_000 (the abort token itself is not
represented: its only observable effect, an `AbortError` at the awaited
point, is the `NetOutcome.aborted` case). -/
structure AnimeSt where
  cache : AnimeCache
  ui : AnimeUI
  lastPageInfo : Option AnimePageInfo
  currentPage : Nat
  lastQuery : String
deriving DecidableEq

/-- The cache key `` `${search}|${page}|${perPage}` `` (line 94). -/
def mkCacheKey (search : String) (page perPage : Nat) : String :=
  search ++ "|" ++ toString page ++ "|" ++ toString perPage

/-- The cache-hit status text (line 98). -/
def cacheHitStatus (p : AnimePage) : String :=
  "Dati dalla cache — pagina " ++ toString p.pageInfo.currentPage ++ "/" ++
    toString p.pageInfo.lastPage ++ " — " ++ toString p.media.length ++
    " risultati mostrati (tot " ++ toString p.pageInfo.total ++ ")"

/-- The success status text (line 129). -/
def successStatus (p : AnimePage) : String :=
  "Mostrati " ++ toString p.media.length ++ " di " ++ toString p.pageInfo.total ++
    " risultati (pagina " ++ toString p.pageInfo.currentPage ++ "/" ++
    toString p.pageInfo.lastPage ++ ")"

/-- What the awaited network interaction of `fetchAnilist` produced. -/
inductive NetOutcome where
  | ok (page : AnimePage)
  | httpError (status : Nat) (bodyText : String) (statusText : String)
  | apiErrors (messages : List String)
  | aborted
deriving DecidableEq

/-- `fetchAnilist` before its `await` (lines 88-101): clear the error, set the
loading status, disable the button, then consult the cache; a hit updates
`lastPageInfo` and the status and returns the cached page with no request. -/
def fetchPre (s : AnimeSt) (search : String) (page perPage : Nat) :
    AnimeSt × Option AnimePage :=
  let s1 := { s with
    ui := { s.ui with
              errorShown := false
              errorText := ""
              status := "Caricamento…"
              searchBtnDisabled := true } }
  match cacheLookup s1.cache (mkCacheKey search page perPage) with
  | some cached =>
      ({ s1 with
           lastPageInfo := some cached.pageInfo
           ui := { s1.ui with
                     status := cacheHitStatus cached
                     searchBtnDisabled := false } },
       some cached)
  | none => (s1, none)

/-- The non-abort catch clause (lines 146-147) followed by the finally clause. -/
def errorOut (s : AnimeSt) (msg : String) : AnimeSt × Option AnimePage :=
  ({ s with
      ui := { s.ui with
                errorShown := true
                errorText := "Errore: " ++ msg
                status := "Errore durante il caricamento."
                searchBtnDisabled := false } }, none)

/-- `fetchAnilist` after its `await` (lines 117-151): non-2xx and API error
lists are thrown and surfaced with an "Errore: " banner; success updates
`lastPageInfo` and the status, stores the page under the key and evicts the
oldest entry past 50; an `AbortError` resets the status text only; the
finally clause re-enables the button on every path. -/
def fetchPost (s : AnimeSt) (key : String) (net : NetOutcome) :
    AnimeSt × Option AnimePage :=
  match net with
  | .ok pd =>
      let s1 := { s with
        lastPageInfo := some pd.pageInfo
        ui := { s.ui with status := successStatus pd } }
      let s2 := { s1 with
        cache := cacheEvict (cacheSet s1.cache key pd)
        ui := { s1.ui with searchBtnDisabled := false } }
      (s2, some pd)
  | .httpError code body statusText =>
      errorOut s ("HTTP " ++ toString code ++ " — " ++
        (if body = "" then statusText else body))
  | .apiErrors msgs => errorOut s (String.intercalate "; " msgs)
  | .aborted =>
      ({ s with
          ui := { s.ui with
                    status := "Richiesta annullata."
                    searchBtnDisabled := false } }, none)

/-- The whole of `fetchAnilist(search, page, perPage)`: the middle `Bool`
records whether a network request was issued (the cache-miss path). -/
def fetchAnilist (s : AnimeSt) (search : String) (page perPage : Nat)
    (net : NetOutcome) : AnimeSt × Bool × Option AnimePage :=
  match fetchPre s search page perPage with
  | (s1, some cached) => (s1, false, some cached)
  | (s1, none) =>
      let r := fetchPost s1 (mkCacheKey search page perPage) net
      (r.1, true, r.2)

/-- `doSearch(page)` of part_000 (lines 265-279): trim the input, fail fast
with a status message when empty, otherwise run `fetchAnilist` (a `perPage`
select value that does not parse to a positive number falls back to 20). The
two booleans: whether `fetchAnilist` was reached, and whether it issued a
network request. -/
def doSearchAnime (s : AnimeSt) (inputValue : String) (perPageSel : Nat)
    (page : Nat) (net : NetOutcome) : AnimeSt × Bool × Bool :=
  if jsTrim inputValue = "" then
    ({ s with ui := { s.ui with status := "Inserisci un termine di ricerca." } },
     false, false)
  else
    let perPage := if perPageSel = 0 then 20 else perPageSel
    let s1 := { s with currentPage := page, lastQuery := jsTrim inputValue }
    let r := fetchAnilist s1 (jsTrim inputValue) page perPage net
    (r.1, true, r.2.1)

/-- The effect of one `fetchAnilist` call on the cache alone. -/
def cacheStep (c : AnimeCache) (key : String) (net : NetOutcome) : AnimeCache :=
  match cacheLookup c key with
  | some _ => c
  | none =>
      match net with
      | .ok p => cacheEvict (cacheSet c key p)
      | _ => c

/-- One user-triggered search request together with the page the server
would answer with. -/
structure SearchReq where
  search : String
  page : Nat
  perPage : Nat
  response : AnimePage
deriving DecidableEq

/-- The RequestKey of a search request. -/
def reqKey (r : SearchReq) : String := mkCacheKey r.search r.page r.perPage

/-- The cache entry a successful search request leaves behind. -/
def reqEntry (r : SearchReq) : String × AnimePage := (reqKey r, r.response)

/-- Run a sequence of searches, each answered successfully. -/
def runOkSearches (s : AnimeSt) (reqs : List SearchReq) : AnimeSt :=
  reqs.foldl
    (fun st r => (fetchAnilist st r.search r.page r.perPage (NetOutcome.ok r.response)).1) s

/-- The module state right after `init()` ran. -/
def initialAnimeSt : AnimeSt :=
  { cache := []
    ui := { status := "Pronto. Inserisci un termine e premi Cerca (o digita)."
            errorShown := false, errorText := "", searchBtnDisabled := false }
    lastPageInfo := none
    currentPage := 1
    lastQuery := "" }

/-- A state as seen by a continuation while a newer request is loading. -/
def loadingAnimeSt : AnimeSt :=
  { initialAnimeSt with
      ui := { status := "Caricamento…", errorShown := false, errorText := ""
              searchBtnDisabled := true } }

/-- A minimal successful response page. -/
def witnessPage : AnimePage :=
  { pageInfo := { total := 0, currentPage := 1, lastPage := 1
                  hasNextPage := false, perPage := 20 }
    media := [] }

/-- Fifty-one distinct search requests. -/
def witnessReqs : List SearchReq :=
  (List.range 51).map
    (fun i => { search := toString i, page := 1, perPage := 20, response := witnessPage })

/-! ## CSV ingestion utility (src/Code/JavaScript.js)

`reader.onload` takes the file text, trims it, splits on newline then comma,
and renders each cell trimmed, with row 0 as `th` header cells. -/

/-- One rendered table cell: `th` (header) or `td`, with its trimmed text. -/
structure CsvCell where
  header : Bool
  content : String
deriving DecidableEq

/-- `const rows = text.trim().split("\n").map(r => r.split(","))` (line 11). -/
def csvRows (text : String) : List (List String) :=
  ((jsTrim text).splitOn "\n").map (fun r => r.splitOn ",")

/-- The `rows.forEach((row, rowIndex) => ...)` loop (lines 16-26): each cell
becomes a `th` exactly when `rowIndex === 0`, with `cell.trim()` as text. -/
def renderRowsFrom : Nat → List (List String) → List (List CsvCell)
  | _, [] => []
  | i, row :: rest =>
      (row.map (fun cell => { header := i == 0, content := jsTrim cell }))
        :: renderRowsFrom (i + 1) rest

/-- The grid of cells produced by `reader.onload` for a given file text. -/
def csvRender (text : String) : List (List CsvCell) :=
  renderRowsFrom 0 (csvRows text)

/-- Follows the spec's words: "the trimmed text is split on newline into rows,
each row is split on comma into cells (no quote or escape handling)", "with
each cell's surrounding whitespace trimmed". -/
def csvGridSpec (text : String) : List (List String) :=
  ((jsTrim text).splitOn "\n").map (fun row => (row.splitOn ",").map (fun cell => jsTrim cell))

/-- Follows the spec's words: "the first row is rendered as the header row";
every other row is a data row. -/
def csvRenderSpec (text : String) : List (List CsvCell) :=
  match csvGridSpec text with
  | [] => []
  | headerRow :: dataRows =>
      (headerRow.map (fun c => { header := true, content := c }))
        :: dataRows.map (fun row => row.map (fun c => { header := false, content := c }))

/-- A catalog state with no category selected. -/
def witnessCatState : CatalogState :=
  { currentFormat := none, page := 1, perPage := 20, search := "" }

/-- A blank catalog UI. -/
def witnessCatUI : CatalogUI := { status := "", errorShown := false, errorText := "" }

/-- The state after one successful resolve for the key "a|1|20". -/
def witnessHitSt : AnimeSt :=
  (fetchAnilist initialAnimeSt "a" 1 20 (NetOutcome.ok witnessPage)).1

/-! ## Supporting lemmas -/

theorem key_le_firstMaxD {α : Type} (key : α → Int) (es : List α) :
    ∀ b : α, key b ≤ key (firstMaxD key b es) := by
  induction es with
  | nil => intro b; simp [firstMaxD]
  | cons e es ih =>
    intro b
    simp only [firstMaxD]
    by_cases h : key b < key e
    · simpa [h] using le_trans (le_of_lt h) (ih e)
    · simpa [h] using ih b

theorem firstMaxD_shift {α : Type} (key : α → Int) (es : List α) :
    ∀ x y : α, key y ≤ key x →
      firstMaxD key x es =
        if key x < key (firstMaxD key y es) then firstMaxD key y es else x := by
  induction es with
  | nil =>
    intro x y hyx
    simp [firstMaxD, not_lt_of_le hyx]
  | cons e es ih =>
    intro x y hyx
    simp only [firstMaxD]
    by_cases hxe : key x < key e
    · have hye : key y < key e := lt_of_le_of_lt hyx hxe
      have hmax : key x < key (firstMaxD key e es) :=
        lt_of_lt_of_le hxe (key_le_firstMaxD key es e)
      simp [hxe, hye, hmax]
    · have hex : key e ≤ key x := le_of_not_lt hxe
      by_cases hye : key y < key e
      · simp only [if_neg hxe, if_pos hye]
        exact ih x e hex
      · simp only [if_neg hxe, if_neg hye]
        exact ih x y hyx

theorem sortDescBy_head {α : Type} (key : α → Int) (xs : List α) :
    ∀ x : α, (sortDescBy key (x :: xs)).head? = some (firstMaxD key x xs) := by
  induction xs with
  | nil => intro x; rfl
  | cons y ys ih =>
    intro x
    have hy := ih y
    show (insertDescBy key x (sortDescBy key (y :: ys))).head? = _
    cases hS : sortDescBy key (y :: ys) with
    | nil => rw [hS] at hy; simp at hy
    | cons h t =>
      rw [hS] at hy
      have hh : h = firstMaxD key y ys := by simpa using hy
      have hstep : firstMaxD key x (y :: ys) = if key x < key h then h else x := by
        simp only [firstMaxD]
        by_cases hxy : key x < key y
        · have hxh : key x < key h := by
            rw [hh]; exact lt_of_lt_of_le hxy (key_le_firstMaxD key ys y)
          rw [if_pos hxy, if_pos hxh]
          exact hh.symm
        · have hyx : key y ≤ key x := le_of_not_lt hxy
          rw [if_neg hxy, firstMaxD_shift key ys x y hyx, ← hh]
      rw [hstep]
      simp only [insertDescBy]
      by_cases hxh : key x < key h
      · simp [hxh]
      · simp [hxh]

theorem firstMaxD_split {α : Type} (key : α → Int) (es : List α) :
    ∀ b : α,
      (firstMaxD key b es = b ∧ ∀ x ∈ es, key x ≤ key b) ∨
      (∃ l₁ l₂, es = l₁ ++ firstMaxD key b es :: l₂ ∧
        key b < key (firstMaxD key b es) ∧
        (∀ x ∈ l₁, key x < key (firstMaxD key b es)) ∧
        (∀ x ∈ l₂, key x ≤ key (firstMaxD key b es))) := by
  induction es with
  | nil => intro b; left; simp [firstMaxD]
  | cons e es ih =>
    intro b
    simp only [firstMaxD]
    by_cases hbe : key b < key e
    · simp only [if_pos hbe]
      rcases ih e with ⟨heq, hbound⟩ | ⟨l₁, l₂, hsplit, hlt, h₁, h₂⟩
      · right
        exact ⟨[], es, by simp [heq], by rw [heq]; exact hbe,
          by simp, by rw [heq]; exact hbound⟩
      · right
        refine ⟨e :: l₁, l₂, by rw [List.cons_append, ← hsplit], lt_trans hbe hlt, ?_, h₂⟩
        intro x hx
        rcases List.mem_cons.mp hx with rfl | hx
        · exact hlt
        · exact h₁ x hx
    · simp only [if_neg hbe]
      have heb : key e ≤ key b := le_of_not_lt hbe
      rcases ih b with ⟨heq, hbound⟩ | ⟨l₁, l₂, hsplit, hlt, h₁, h₂⟩
      · left
        refine ⟨heq, ?_⟩
        intro x hx
        rcases List.mem_cons.mp hx with rfl | hx
        · exact heb
        · exact hbound x hx
      · right
        refine ⟨e :: l₁, l₂, by rw [List.cons_append, ← hsplit], hlt, ?_, h₂⟩
        intro x hx
        rcases List.mem_cons.mp hx with rfl | hx
        · exact lt_of_le_of_lt heb hlt
        · exact h₁ x hx

theorem firstMax_split {α : Type} (key : α → Int) (l : List α) (m : α)
    (h : firstMax key l = some m) :
    ∃ l₁ l₂, l = l₁ ++ m :: l₂ ∧ (∀ x ∈ l₁, key x < key m) ∧
      (∀ x ∈ l₂, key x ≤ key m) := by
  cases l with
  | nil => simp [firstMax] at h
  | cons x xs =>
    simp only [firstMax] at h
    have hm : firstMaxD key x xs = m := by injection h
    rcases firstMaxD_split key xs x with ⟨heq, hbound⟩ | ⟨l₁, l₂, hsplit, hlt, h₁, h₂⟩
    · refine ⟨[], xs, ?_, by simp, ?_⟩
      · simp [← hm, heq]
      · rw [← hm, heq]; exact hbound
    · rw [hm] at hsplit hlt h₁ h₂
      refine ⟨x :: l₁, l₂, by simp [hsplit], ?_, h₂⟩
      intro z hz
      rcases List.mem_cons.mp hz with rfl | hz
      · exact hlt
      · exact h₁ z hz

theorem cacheLookup_eq_none_iff (c : AnimeCache) (k : String) :
    cacheLookup c k = none ↔ ∀ e ∈ c, e.1 ≠ k := by
  induction c with
  | nil => simp [cacheLookup]
  | cons e t ih =>
    obtain ⟨ek, ev⟩ := e
    simp only [cacheLookup]
    by_cases h : ek = k
    · simp [h]
    · simp [h, ih]

theorem cacheSet_fresh (c : AnimeCache) (k : String) (v : AnimePage)
    (h : ∀ e ∈ c, e.1 ≠ k) : cacheSet c k v = c ++ [(k, v)] := by
  induction c with
  | nil => rfl
  | cons e t ih =>
    obtain ⟨ek, ev⟩ := e
    have hek : ek ≠ k := h (ek, ev) (List.mem_cons_self _ _)
    simp only [cacheSet, if_neg hek, List.cons_append, List.cons.injEq, true_and]
    exact ih (fun x hx => h x (List.mem_cons_of_mem _ hx))

theorem cacheLookup_append_last (c : AnimeCache) (k : String) (v : AnimePage)
    (h : ∀ e ∈ c, e.1 ≠ k) : cacheLookup (c ++ [(k, v)]) k = some v := by
  induction c with
  | nil => simp [cacheLookup]
  | cons e t ih =>
    obtain ⟨ek, ev⟩ := e
    have hek : ek ≠ k := h (ek, ev) (List.mem_cons_self _ _)
    simp only [List.cons_append, cacheLookup, if_neg hek]
    exact ih (fun x hx => h x (List.mem_cons_of_mem _ hx))

theorem cacheEvict_of_le (c : AnimeCache) (h : c.length ≤ 50) : cacheEvict c = c := by
  simp [cacheEvict, Nat.not_lt.mpr h]

theorem cacheEvict_of_gt (c : AnimeCache) (h : 50 < c.length) :
    cacheEvict c = c.tail := by
  cases c with
  | nil => simp at h
  | cons e t =>
    obtain ⟨k, v⟩ := e
    unfold cacheEvict
    rw [if_pos h]
    simp [cacheDeleteKey]

theorem cacheLookup_insert (c : AnimeCache) (k : String) (v : AnimePage)
    (h : cacheLookup c k = none) :
    cacheLookup (cacheEvict (cacheSet c k v)) k = some v := by
  have hfresh : ∀ e ∈ c, e.1 ≠ k := (cacheLookup_eq_none_iff c k).mp h
  rw [cacheSet_fresh c k v hfresh]
  by_cases hlen : (c ++ [(k, v)]).length ≤ 50
  · rw [cacheEvict_of_le _ hlen]
    exact cacheLookup_append_last c k v hfresh
  · have hgt : 50 < (c ++ [(k, v)]).length := Nat.lt_of_not_le hlen
    rw [cacheEvict_of_gt _ hgt]
    cases c with
    | nil => simp at hgt
    | cons e t =>
      simp only [List.cons_append, List.tail_cons]
      exact cacheLookup_append_last t k v
        (fun x hx => hfresh x (List.mem_cons_of_mem _ hx))

theorem fetchAnilist_cache (s : AnimeSt) (q : String) (p pp : Nat) (net : NetOutcome) :
    (fetchAnilist s q p pp net).1.cache = cacheStep s.cache (mkCacheKey q p pp) net := by
  unfold fetchAnilist fetchPre cacheStep
  cases h : cacheLookup s.cache (mkCacheKey q p pp) with
  | some v => simp [h]
  | none =>
    cases net with
    | ok pd => simp [h, fetchPost]
    | httpError c b st => simp [h, fetchPost, errorOut]
    | apiErrors m => simp [h, fetchPost, errorOut]
    | aborted => simp [h, fetchPost]

theorem runOkSearches_cache (reqs : List SearchReq) : ∀ s : AnimeSt,
    (runOkSearches s reqs).cache
      = reqs.foldl (fun c r => cacheStep c (reqKey r) (NetOutcome.ok r.response)) s.cache := by
  induction reqs with
  | nil => intro s; rfl
  | cons r rs ih =>
    intro s
    have hstep : runOkSearches s (r :: rs)
        = runOkSearches (fetchAnilist s r.search r.page r.perPage (NetOutcome.ok r.response)).1 rs := rfl
    rw [hstep, ih]
    simp only [List.foldl_cons]
    rw [fetchAnilist_cache]
    rfl

theorem foldFresh_cache (reqs : List SearchReq) : ∀ c : AnimeCache,
    c.length ≤ 50 →
    (∀ r ∈ reqs, ∀ e ∈ c, e.1 ≠ reqKey r) →
    (reqs.map reqKey).Nodup →
    reqs.foldl (fun c r => cacheStep c (reqKey r) (NetOutcome.ok r.response)) c
      = (c ++ reqs.map reqEntry).drop (c.length + reqs.length - 50) := by
  induction reqs with
  | nil =>
    intro c hlen _ _
    simp [Nat.sub_eq_zero_of_le hlen]
  | cons r rs ih =>
    intro c hlen hfresh hnodup
    have hfr : ∀ e ∈ c, e.1 ≠ reqKey r := hfresh r (List.mem_cons_self _ _)
    have hnone : cacheLookup c (reqKey r) = none := (cacheLookup_eq_none_iff _ _).mpr hfr
    have hsteps : cacheStep c (reqKey r) (NetOutcome.ok r.response)
        = cacheEvict (c ++ [reqEntry r]) := by
      simp [cacheStep, hnone, cacheSet_fresh c _ _ hfr, reqEntry]
    have hkey : reqKey r ∉ rs.map reqKey := by
      simp only [List.map_cons, List.nodup_cons] at hnodup
      exact hnodup.1
    have hnodup2 : (rs.map reqKey).Nodup := by
      simp only [List.map_cons, List.nodup_cons] at hnodup
      exact hnodup.2
    have hfresh2 : ∀ r' ∈ rs, ∀ e ∈ c ++ [reqEntry r], e.1 ≠ reqKey r' := by
      intro r' hr' e he
      rcases List.mem_append.mp he with hec | heS
      · exact hfresh r' (List.mem_cons_of_mem _ hr') e hec
      · have heq : e = reqEntry r := by simpa using heS
        subst heq
        intro hcontra
        apply hkey
        have : reqKey r = reqKey r' := hcontra
        rw [this]
        exact List.mem_map_of_mem reqKey hr'
    simp only [List.foldl_cons, hsteps]
    by_cases h50 : c.length < 50
    · have hlen2 : (c ++ [reqEntry r]).length ≤ 50 := by
        simp only [List.length_append, List.length_cons, List.length_nil]
        omega
      rw [cacheEvict_of_le _ hlen2, ih (c ++ [reqEntry r]) hlen2 hfresh2 hnodup2]
      have hidx : (c ++ [reqEntry r]).length + rs.length - 50
          = c.length + (r :: rs).length - 50 := by
        simp only [List.length_append, List.length_cons, List.length_nil]
        omega
      rw [hidx, List.append_assoc]
      rfl
    · have hc50 : c.length = 50 := le_antisymm hlen (Nat.le_of_not_lt h50)
      have hgt : 50 < (c ++ [reqEntry r]).length := by
        simp only [List.length_append, List.length_cons, List.length_nil]
        omega
      rw [cacheEvict_of_gt _ hgt]
      cases c with
      | nil => simp at hc50
      | cons e0 t =>
        have htlen : (t ++ [reqEntry r]).length ≤ 50 := by
          simp only [List.length_cons] at hc50
          simp only [List.length_append, List.length_cons, List.length_nil]
          omega
        have hfresh3 : ∀ r' ∈ rs, ∀ e ∈ t ++ [reqEntry r], e.1 ≠ reqKey r' := by
          intro r' hr' e he
          apply hfresh2 r' hr' e
          rcases List.mem_append.mp he with h1 | h1
          · exact List.mem_append.mpr (Or.inl (List.mem_cons_of_mem _ h1))
          · exact List.mem_append.mpr (Or.inr h1)
        simp only [List.cons_append, List.tail_cons]
        rw [ih (t ++ [reqEntry r]) htlen hfresh3 hnodup2]
        have hidx1 : (t ++ [reqEntry r]).length + rs.length - 50 = rs.length := by
          simp only [List.length_cons] at hc50
          simp only [List.length_append, List.length_cons, List.length_nil]
          omega
        have hidx2 : (e0 :: t).length + (r :: rs).length - 50 = rs.length + 1 := by
          simp only [List.length_cons] at hc50 ⊢
          omega
        rw [hidx1, hidx2]
        simp only [List.map_cons, List.cons_append, List.drop_succ_cons,
          List.append_assoc, List.singleton_append, List.nil_append]

theorem CHeap.read_alloc_old {α : Type} (h : CHeap α) (xs : List α) (r : Nat)
    (hr : r < h.next) : ((h.alloc xs).1).read r = h.read r := by
  simp [CHeap.alloc, CHeap.read, Nat.ne_of_lt hr]

theorem CHeap.read_write_other {α : Type} (h : CHeap α) (t : Nat) (xs : List α)
    (r : Nat) (hr : r ≠ t) : (h.write t xs).read r = h.read r := by
  simp [CHeap.write, CHeap.read, hr]

theorem fetchAnilist_hit (s : AnimeSt) (q : String) (p pp : Nat) (net : NetOutcome)
    (v : AnimePage) (hv : cacheLookup s.cache (mkCacheKey q p pp) = some v) :
    (fetchAnilist s q p pp net).2.1 = false
    ∧ (fetchAnilist s q p pp net).2.2 = some v
    ∧ (fetchAnilist s q p pp net).1.cache = s.cache := by
  unfold fetchAnilist fetchPre
  simp [hv]

theorem renderRowsFrom_succ (rows : List (List String)) : ∀ n : Nat,
    renderRowsFrom (n + 1) rows
      = rows.map (fun row => row.map (fun c => { header := false, content := jsTrim c })) := by
  induction rows with
  | nil => intro n; rfl
  | cons row rest ih =>
    intro n
    simp only [renderRowsFrom, List.map_cons]
    rw [ih (n + 1)]
    rfl

theorem renderRowsFrom_content (rows : List (List String)) : ∀ n : Nat,
    (renderRowsFrom n rows).map (fun row => row.map CsvCell.content)
      = rows.map (fun row => row.map (fun c => jsTrim c)) := by
  induction rows with
  | nil => intro n; rfl
  | cons row rest ih =>
    intro n
    simp only [renderRowsFrom, List.map_cons, List.map_map]
    rw [ih (n + 1)]
    rfl

theorem csvGridSpec_eq_rows (text : String) :
    csvGridSpec text = (csvRows text).map (fun row => row.map (fun c => jsTrim c)) := by
  unfold csvGridSpec csvRows
  rw [List.map_map]
  rfl

/-! ## Claim theorems -/

/-- Claim C2: for every FilterState with a selected category, the Query
Builder's output variables follow the fixed mapping table — NOVEL yields
`format_in = ["NOVEL"]` and no country field; MANGA, MANHWA, MANHUA yield
`format_in = ["MANGA"]` together with country "JP", "KR", "CN" respectively. -/
theorem buildVariables_category_table (p pp : Nat) (q : String) :
    (buildVariables ⟨some CatFormat.NOVEL, p, pp, q⟩).format_in = ["NOVEL"]
    ∧ (buildVariables ⟨some CatFormat.NOVEL, p, pp, q⟩).country = none
    ∧ (buildVariables ⟨some CatFormat.MANGA, p, pp, q⟩).format_in = ["MANGA"]
    ∧ (buildVariables ⟨some CatFormat.MANGA, p, pp, q⟩).country = some "JP"
    ∧ (buildVariables ⟨some CatFormat.MANHWA, p, pp, q⟩).format_in = ["MANGA"]
    ∧ (buildVariables ⟨some CatFormat.MANHWA, p, pp, q⟩).country = some "KR"
    ∧ (buildVariables ⟨some CatFormat.MANHUA, p, pp, q⟩).format_in = ["MANGA"]
    ∧ (buildVariables ⟨some CatFormat.MANHUA, p, pp, q⟩).country = some "CN" := by
  refine ⟨?_, ?_, ?_, ?_, ?_, ?_, ?_, ?_⟩ <;> simp [buildVariables]

/-- Claim C3: resolving the same RequestKey twice is idempotent with respect
to the network — after a first resolve for the key answered successfully, a
second resolve with the identical key (same search text, page and page size)
issues no network call and returns exactly the page stored in the cache for
that key (which is present). -/
theorem resolve_idempotent (s : AnimeSt) (q : String) (p pp : Nat)
    (pd : AnimePage) (net2 : NetOutcome) :
    (fetchAnilist (fetchAnilist s q p pp (NetOutcome.ok pd)).1 q p pp net2).2.1 = false
    ∧ (fetchAnilist (fetchAnilist s q p pp (NetOutcome.ok pd)).1 q p pp net2).2.2
        = cacheLookup (fetchAnilist s q p pp (NetOutcome.ok pd)).1.cache (mkCacheKey q p pp)
    ∧ (cacheLookup (fetchAnilist s q p pp (NetOutcome.ok pd)).1.cache
        (mkCacheKey q p pp)).isSome = true := by
  have hsome : ∃ v, cacheLookup (fetchAnilist s q p pp (NetOutcome.ok pd)).1.cache
      (mkCacheKey q p pp) = some v := by
    rw [fetchAnilist_cache]
    unfold cacheStep
    cases h : cacheLookup s.cache (mkCacheKey q p pp) with
    | some v => exact ⟨v, by simp [h]⟩
    | none => exact ⟨pd, by simp [h, cacheLookup_insert s.cache _ pd h]⟩
  obtain ⟨v, hv⟩ := hsome
  obtain ⟨h1, h2, _⟩ := fetchAnilist_hit _ q p pp net2 v hv
  refine ⟨h1, ?_, ?_⟩
  · rw [h2, hv]
  · rw [hv]
    rfl

/-- Claim C5, counterexample: with the API answering
`{errors:[{message:"bad"},{message:"worse"}]}` the anime-search flow surfaces
the visible error text "Errore: bad; worse", which is not the bare join
"bad; worse" that the claim asserts is surfaced (the cache is indeed left
unchanged). -/
theorem api_error_surfaced_counterexample :
    (fetchAnilist initialAnimeSt "q" 1 20 (NetOutcome.apiErrors ["bad", "worse"])).1.ui.errorShown = true
    ∧ (fetchAnilist initialAnimeSt "q" 1 20 (NetOutcome.apiErrors ["bad", "worse"])).1.ui.errorText
        = "Errore: bad; worse"
    ∧ "Errore: bad; worse" ≠ "bad; worse"
    ∧ (fetchAnilist initialAnimeSt "q" 1 20 (NetOutcome.apiErrors ["bad", "worse"])).1.cache = [] := by
  refine ⟨by decide, by decide, by decide, by decide⟩

/-- Claim C5, amended: on an API error list the thrown message is the error
messages joined by "; "; the anime-search flow surfaces it prefixed with
"Errore: "; the catalog flow surfaces the join verbatim when it is non-empty,
and for an empty join (empty error list, or only empty messages) `err.message`
is falsy and the stringified empty-message error "Error" is surfaced instead;
in both flows the failure produces no page and the anime-search cache is left
unchanged (no entry is created under the RequestKey). -/
theorem api_error_surfaced_amended (s : AnimeSt) (key : String)
    (msgs : List String) (u : CatalogUI) :
    (fetchPost s key (NetOutcome.apiErrors msgs)).1.cache = s.cache
    ∧ (fetchPost s key (NetOutcome.apiErrors msgs)).1.ui.errorShown = true
    ∧ (fetchPost s key (NetOutcome.apiErrors msgs)).1.ui.errorText
        = "Errore: " ++ String.intercalate "; " msgs
    ∧ (fetchPost s key (NetOutcome.apiErrors msgs)).2 = none
    ∧ (catalogNetCont u (CatNet.apiErrors msgs)).1.errorShown = true
    ∧ (catalogNetCont u (CatNet.apiErrors msgs)).1.errorText
        = (if String.intercalate "; " msgs = "" then "Error"
           else String.intercalate "; " msgs) :=
  ⟨rfl, rfl, rfl, rfl, rfl, rfl⟩

/-- Claim C6, counterexample: a cancelled request's continuation does mutate
state — observing the abort, it overwrites the status text (set to
"Caricamento…" by the newer request) with "Richiesta annullata.", so "no
status update" fails on this concrete state. -/
theorem cancelled_no_mutation_counterexample :
    (fetchPost loadingAnimeSt "k" NetOutcome.aborted).1.ui.status = "Richiesta annullata."
    ∧ loadingAnimeSt.ui.status = "Caricamento…"
    ∧ (fetchPost loadingAnimeSt "k" NetOutcome.aborted).1.ui.status
        ≠ loadingAnimeSt.ui.status := by
  refine ⟨by decide, by decide, by decide⟩

/-- Claim C6, amended: a cancelled (superseded) request writes no cache
entry, shows no error, and its outcome is returned as `none` (never surfaced
as a user-visible error and never cached); however its handler does update
state: it sets the status text to the neutral "Richiesta annullata." and
re-enables the search button. -/
theorem cancelled_no_mutation_amended (s : AnimeSt) (key : String) :
    (fetchPost s key NetOutcome.aborted).1.cache = s.cache
    ∧ (fetchPost s key NetOutcome.aborted).1.ui.errorShown = s.ui.errorShown
    ∧ (fetchPost s key NetOutcome.aborted).1.ui.errorText = s.ui.errorText
    ∧ (fetchPost s key NetOutcome.aborted).2 = none
    ∧ (fetchPost s key NetOutcome.aborted).1.ui.status = "Richiesta annullata."
    ∧ (fetchPost s key NetOutcome.aborted).1.ui.searchBtnDisabled = false :=
  ⟨rfl, rfl, rfl, rfl, rfl, rfl⟩

/-- Claim C8: validation fails fast without a request — a category-driven
search with no category selected shows the inline error and never reaches the
request-issuing path, and a free-text search whose input is empty after
trimming sets the inline status message and issues no request. -/
theorem validation_fails_fast :
    (∀ (s : CatalogState) (u : CatalogUI) (v : String) (pg : Nat) (net : CatNet),
      s.currentFormat = none →
        (doSearchCatalog s u v pg net).2.2 = false
        ∧ (doSearchCatalog s u v pg net).2.1.errorShown = true
        ∧ (doSearchCatalog s u v pg net).2.1.errorText = "Seleziona una sottocategoria.")
    ∧ (∀ (s : AnimeSt) (v : String) (pps pg : Nat) (net : NetOutcome),
      jsTrim v = "" →
        (doSearchAnime s v pps pg net).2.1 = false
        ∧ (doSearchAnime s v pps pg net).2.2 = false
        ∧ (doSearchAnime s v pps pg net).1.ui.status = "Inserisci un termine di ricerca.") := by
  constructor
  · intro s u v pg net h
    refine ⟨?_, ?_, ?_⟩ <;> simp [doSearchCatalog, h]
  · intro s v pps pg net h
    refine ⟨?_, ?_, ?_⟩ <;> simp [doSearchAnime, h]

/-- Witness for C8: concrete no-category and blank-input searches. -/
theorem validation_fails_fast_witness :
    witnessCatState.currentFormat = none
    ∧ (doSearchCatalog witnessCatState witnessCatUI "x" 1 (CatNet.apiErrors [])).2.2 = false
    ∧ jsTrim "   " = ""
    ∧ (doSearchAnime initialAnimeSt "   " 20 1 NetOutcome.aborted).2.1 = false := by
  refine ⟨rfl,
    (validation_fails_fast.1 witnessCatState witnessCatUI "x" 1 (CatNet.apiErrors []) rfl).1,
    by decide,
    (validation_fails_fast.2 initialAnimeSt "   " 20 1 NetOutcome.aborted (by decide)).1⟩

/-- Claim C4: the cache is FIFO-bounded at 50 entries — after 51 successful
resolves with pairwise distinct keys starting from the initial (empty-cache)
state, the cache holds exactly 50 entries and the first-inserted key is
absent; moreover a resolve that hits the cache leaves the cache exactly
unchanged, so eviction order depends only on insertion order, never on
subsequent cache-hit accesses. -/
theorem cache_fifo_bound (reqs : List SearchReq)
    (hnodup : (reqs.map reqKey).Nodup) (hlen : reqs.length = 51) :
    (runOkSearches initialAnimeSt reqs).cache.length = 50
    ∧ (∀ r0, reqs.head? = some r0 →
        cacheLookup (runOkSearches initialAnimeSt reqs).cache (reqKey r0) = none)
    ∧ (∀ (s : AnimeSt) (q : String) (p pp : Nat) (net : NetOutcome),
        (cacheLookup s.cache (mkCacheKey q p pp)).isSome = true →
        (fetchAnilist s q p pp net).1.cache = s.cache) := by
  have hrun : (runOkSearches initialAnimeSt reqs).cache = (reqs.map reqEntry).drop 1 := by
    rw [runOkSearches_cache]
    have hinit : initialAnimeSt.cache = ([] : AnimeCache) := rfl
    rw [hinit, foldFresh_cache reqs [] (by simp) (by simp) hnodup]
    simp [hlen]
  refine ⟨?_, ?_, ?_⟩
  · rw [hrun]
    simp [hlen]
  · intro r0 h0
    cases reqs with
    | nil => simp at h0
    | cons r rs =>
      have hr0 : r0 = r := by simpa using h0.symm
      subst hr0
      rw [hrun]
      simp only [List.map_cons, List.drop_succ_cons, List.drop_zero]
      apply (cacheLookup_eq_none_iff _ _).mpr
      intro e he
      obtain ⟨r', hr', he'⟩ := List.mem_map.mp he
      subst he'
      intro hcontra
      have hkey : reqKey r0 ∉ rs.map reqKey := by
        simp only [List.map_cons, List.nodup_cons] at hnodup
        exact hnodup.1
      apply hkey
      have : reqKey r' = reqKey r0 := hcontra
      rw [← this]
      exact List.mem_map_of_mem reqKey hr'
  · intro s q p pp net hs
    obtain ⟨v, hv⟩ := Option.isSome_iff_exists.mp hs
    exact (fetchAnilist_hit s q p pp net v hv).2.2

/-- Witness for C4: 51 concrete distinct keys inserted from the initial
state; also a concrete cache hit leaving the cache unchanged. -/
theorem cache_fifo_bound_witness :
    (witnessReqs.map reqKey).Nodup ∧ witnessReqs.length = 51
    ∧ (runOkSearches initialAnimeSt witnessReqs).cache.length = 50
    ∧ cacheLookup (runOkSearches initialAnimeSt witnessReqs).cache
        (mkCacheKey "0" 1 20) = none
    ∧ (cacheLookup witnessHitSt.cache (mkCacheKey "a" 1 20)).isSome = true
    ∧ (fetchAnilist witnessHitSt "a" 1 20 NetOutcome.aborted).1.cache
        = witnessHitSt.cache := by
  have hnodup : (witnessReqs.map reqKey).Nodup := by decide
  have hlen : witnessReqs.length = 51 := by decide
  have hhead : witnessReqs.head? =
      some { search := "0", page := 1, perPage := 20, response := witnessPage } := by decide
  have hsome : (cacheLookup witnessHitSt.cache (mkCacheKey "a" 1 20)).isSome = true := by decide
  refine ⟨hnodup, hlen, (cache_fifo_bound witnessReqs hnodup hlen).1, ?_, hsome, ?_⟩
  · have h := (cache_fifo_bound witnessReqs hnodup hlen).2.1 _ hhead
    simpa [reqKey, mkCacheKey] using h
  · exact (cache_fifo_bound witnessReqs hnodup hlen).2.2 witnessHitSt "a" 1 20
      NetOutcome.aborted hsome

/-- Claim C1: protagonist selection follows the fallback chain — after
discarding edges with no node, if more than one edge has a role containing
"MAIN" (case-insensitive) the one with the highest favourite count wins (ties
broken by original list order, via `firstMax`); with no MAIN edge, the
highest numeric favourite count wins (stable tie-break); with no numeric
favourite count at all, the first edge with a non-empty name is selected, and
failing that the result is the blank "no protagonist". In particular, for
favourites [300, 700, 200] with no MAIN roles the 700 edge ("B") is selected. -/
theorem pickProtagonist_fallback_chain (raw : List CharEdge) :
    (1 < (mainEdgesOf raw).length →
      pickProtagonist (some raw) = (firstMax favKeyC (mainEdgesOf raw)).map protagOfEdge)
    ∧ (mainEdgesOf raw = [] → favEdgesOf raw ≠ [] →
      pickProtagonist (some raw) = (firstMax favKeyC (favEdgesOf raw)).map protagOfEdge)
    ∧ (mainEdgesOf raw = [] → favEdgesOf raw = [] →
      protagOrBlank (pickProtagonist (some raw))
        = (match (validEdges raw).find? hasFullName with
           | some e => protagOfEdge e
           | none => { name := "", image := "" }))
    ∧ pickProtagonist (some exampleNoMain) = some { name := "B", image := "" } := by
  refine ⟨?_, ?_, ?_, by decide⟩
  · intro h1
    have hle : (mainEdgesOf raw).length ≤ (validEdges raw).length :=
      List.length_filter_le _ _
    have hvne : ¬ (validEdges raw).length = 0 := by omega
    have hne1 : ¬ (mainEdgesOf raw).length = 1 := by omega
    obtain ⟨m, ms, hm⟩ : ∃ m ms, mainEdgesOf raw = m :: ms := by
      cases hM : mainEdgesOf raw with
      | nil => rw [hM] at h1; simp at h1
      | cons a b => exact ⟨a, b, rfl⟩
    simp only [pickProtagonist]
    rw [if_neg hvne, if_neg hne1, if_pos h1, hm, sortDescBy_head]
    simp [firstMax]
  · intro hm0 hfne
    have hfpos : 0 < (favEdgesOf raw).length := by
      cases hF : favEdgesOf raw with
      | nil => exact absurd hF hfne
      | cons a b => simp [hF]
    have hle : (favEdgesOf raw).length ≤ (validEdges raw).length :=
      List.length_filter_le _ _
    have hvne : ¬ (validEdges raw).length = 0 := by omega
    have hne1 : ¬ (mainEdgesOf raw).length = 1 := by simp [hm0]
    have hne2 : ¬ 1 < (mainEdgesOf raw).length := by simp [hm0]
    obtain ⟨f, fs, hf⟩ : ∃ f fs, favEdgesOf raw = f :: fs := by
      cases hF : favEdgesOf raw with
      | nil => exact absurd hF hfne
      | cons a b => exact ⟨a, b, rfl⟩
    simp only [pickProtagonist]
    rw [if_neg hvne, if_neg hne1, if_neg hne2, if_pos hfpos, hf, sortDescBy_head]
    simp [firstMax]
  · intro hm0 hf0
    have hne1 : ¬ (mainEdgesOf raw).length = 1 := by simp [hm0]
    have hne2 : ¬ 1 < (mainEdgesOf raw).length := by simp [hm0]
    have hne3 : ¬ 0 < (favEdgesOf raw).length := by simp [hf0]
    by_cases hv : (validEdges raw).length = 0
    · have hvnil : validEdges raw = [] := List.length_eq_zero.mp hv
      simp only [pickProtagonist]
      rw [if_pos hv]
      simp [protagOrBlank, hvnil]
    · simp only [pickProtagonist]
      rw [if_neg hv, if_neg hne1, if_neg hne2, if_neg hne3]
      cases hfind : (validEdges raw).find? hasFullName with
      | some e => simp [protagOrBlank, hfind]
      | none => simp [protagOrBlank, hfind]

/-- Witness for C1: the three fallback branches exercised on concrete edge
lists (two MAIN edges; no MAIN edges with favourites 300/700/200; no numeric
favourites with first named edge "Alice"). -/
theorem pickProtagonist_fallback_chain_witness :
    1 < (mainEdgesOf exampleTwoMain).length
    ∧ pickProtagonist (some exampleTwoMain)
        = (firstMax favKeyC (mainEdgesOf exampleTwoMain)).map protagOfEdge
    ∧ mainEdgesOf exampleNoMain = [] ∧ favEdgesOf exampleNoMain ≠ []
    ∧ pickProtagonist (some exampleNoMain)
        = (firstMax favKeyC (favEdgesOf exampleNoMain)).map protagOfEdge
    ∧ mainEdgesOf exampleNoFav = [] ∧ favEdgesOf exampleNoFav = []
    ∧ protagOrBlank (pickProtagonist (some exampleNoFav)) = { name := "Alice", image := "" } := by
  refine ⟨by decide, (pickProtagonist_fallback_chain exampleTwoMain).1 (by decide),
    by decide, by decide,
    (pickProtagonist_fallback_chain exampleNoMain).2.1 (by decide) (by decide),
    by decide, by decide, ?_⟩
  have h := (pickProtagonist_fallback_chain exampleNoFav).2.2.1 (by decide) (by decide)
  rw [h]
  decide

/-- Claim C7: main-creator selection — after discarding edges with no node,
the considered set is the edges whose role matches (case-insensitively) any
of "story", "original", "creator", "author", or all valid edges when none
match; from it the edge with the highest favourite count is selected
(missing counts treated as 0, ties broken by original list order, via
`firstMax`), and the result exposes only the selected node's name. -/
theorem pickMainStaff_selection (raw : List StaffEdge) :
    pickMainStaff (some raw) = (firstMax favKeyS (consideredStaff raw)).map mainStaffOf := by
  by_cases hv : (staffValidEdges raw).length = 0
  · have hvnil : staffValidEdges raw = [] := List.length_eq_zero.mp hv
    have hmnil : staffMatchEdges raw = [] := by
      unfold staffMatchEdges
      rw [hvnil]
      rfl
    have hcnil : consideredStaff raw = [] := by
      unfold consideredStaff
      rw [hmnil, hvnil]
      simp
    simp [pickMainStaff, hv, hcnil, firstMax]
  · have hcne : consideredStaff raw ≠ [] := by
      unfold consideredStaff
      by_cases hm : (staffMatchEdges raw).length = 0
      · rw [if_pos hm]
        intro hcontra
        exact hv (by rw [hcontra]; rfl)
      · rw [if_neg hm]
        intro hcontra
        exact hm (by rw [hcontra]; rfl)
    obtain ⟨c, cs, hc⟩ : ∃ c cs, consideredStaff raw = c :: cs := by
      cases hC : consideredStaff raw with
      | nil => exact absurd hC hcne
      | cons a b => exact ⟨a, b, rfl⟩
    simp only [pickMainStaff]
    rw [if_neg hv, hc, sortDescBy_head]
    simp [firstMax]

/-- Claim C9: the CSV ingestion utility maps raw input text to a literal grid
of strings — the rendered grid equals the spec-side description (trimmed text
split on newline then comma, first row as header, every other row as data),
and the cell contents equal the split with each cell trimmed. -/
theorem csv_literal_grid (text : String) :
    csvRender text = csvRenderSpec text
    ∧ (csvRender text).map (fun row => row.map CsvCell.content) = csvGridSpec text := by
  constructor
  · unfold csvRender csvRenderSpec
    rw [csvGridSpec_eq_rows]
    cases hrows : csvRows text with
    | nil => rfl
    | cons r rs =>
      simp only [List.map_cons, renderRowsFrom]
      rw [renderRowsFrom_succ rs 0]
      simp [List.map_map]
  · unfold csvRender
    rw [renderRowsFrom_content (csvRows text) 0, csvGridSpec_eq_rows]

/-- Claim C10: `pickProtagonist` and `pickMainStaff` never mutate their
input — replaying both pickers against the explicit array store (filter
allocates, sort writes in place), the argument array reads back unchanged,
because every sort targets a freshly filtered copy. -/
theorem pickers_input_unchanged :
    (∀ (h : CHeap CharEdge) (r : Nat), r < h.next →
      ((pickProtagonistH h r).1).read r = h.read r)
    ∧ (∀ (h : CHeap StaffEdge) (r : Nat), r < h.next →
      ((pickMainStaffH h r).1).read r = h.read r) := by
  constructor
  · intro h r hr
    have hr1 : r < h.next + 1 := by omega
    have hr2 : r < h.next + 2 := by omega
    unfold pickProtagonistH
    dsimp only
    split
    · exact CHeap.read_alloc_old h _ r hr
    · split
      · rw [CHeap.read_alloc_old _ _ r hr1]
        exact CHeap.read_alloc_old h _ r hr
      · split
        · rw [CHeap.read_write_other _ _ _ r (by exact Nat.ne_of_lt hr1)]
          rw [CHeap.read_alloc_old _ _ r hr1]
          exact CHeap.read_alloc_old h _ r hr
        · split
          · rw [CHeap.read_write_other _ _ _ r (by exact Nat.ne_of_lt hr2)]
            rw [CHeap.read_alloc_old _ _ r hr2]
            rw [CHeap.read_alloc_old _ _ r hr1]
            exact CHeap.read_alloc_old h _ r hr
          · split
            · rw [CHeap.read_alloc_old _ _ r hr2]
              rw [CHeap.read_alloc_old _ _ r hr1]
              exact CHeap.read_alloc_old h _ r hr
            · rw [CHeap.read_alloc_old _ _ r hr2]
              rw [CHeap.read_alloc_old _ _ r hr1]
              exact CHeap.read_alloc_old h _ r hr
  · intro h r hr
    have hr1 : r < h.next + 1 := by omega
    unfold pickMainStaffH
    dsimp only
    split
    · exact CHeap.read_alloc_old h _ r hr
    · rw [CHeap.read_write_other _ _ _ r ?hne]
      case hne =>
        split
        · exact Nat.ne_of_lt hr
        · exact Nat.ne_of_lt hr1
      rw [CHeap.read_alloc_old _ _ r hr1]
      exact CHeap.read_alloc_old h _ r hr

/-- Witness for C10: concrete one-cell stores for both pickers. -/
theorem pickers_input_unchanged_witness :
    0 < witnessCharHeap.next
    ∧ ((pickProtagonistH witnessCharHeap 0).1).read 0 = witnessCharHeap.read 0
    ∧ 0 < witnessStaffHeap.next
    ∧ ((pickMainStaffH witnessStaffHeap 0).1).read 0 = witnessStaffHeap.read 0 := by
  refine ⟨by decide, pickers_input_unchanged.1 witnessCharHeap 0 (by decide),
    by decide, pickers_input_unchanged.2 witnessStaffHeap 0 (by decide)⟩
